import Mathlib

/-!
Verification of the result-tracking core of `torrent_tester.py` (ptt-tester).

The Python module keeps a persisted results document
`{versions: {version -> stats}, titles: {title -> {version -> verdict}}}`,
records human verdicts about a title parser, samples untested titles and
reports statistics.  Python `dict`s are modelled as association lists over
`String` keys with dict semantics: lookup finds the first binding, update
replaces the value of an existing binding in place and appends otherwise.
Timestamps (`datetime.now()`) are threaded as explicit `now` arguments.
-/

namespace PttTester

/-- Association list with `String` keys, modelling a Python `dict`. -/
abbrev AssocL (α : Type) := List (String × α)

/-- Lookup, Python `d[k]` / `k in d`: value of the first binding of `k`, if any. -/
def alookup {α : Type} (k : String) : AssocL α → Option α
  | [] => none
  | (k2, v) :: rest => if k2 = k then some v else alookup k rest

/-- Membership test, Python `k in d`. -/
def acontains {α : Type} (k : String) (m : AssocL α) : Bool :=
  (alookup k m).isSome

/-- Store, Python `d[k] = v`: replace the binding in place if present, else append. -/
def aset {α : Type} (k : String) (v : α) : AssocL α → AssocL α
  | [] => [(k, v)]
  | (k2, w) :: rest => if k2 = k then (k2, v) :: rest else (k2, w) :: aset k v rest

/-- Update the value stored under `k` in place (used for nested dict writes). -/
def amodify {α : Type} (k : String) (f : α → α) : AssocL α → AssocL α
  | [] => []
  | (k2, v) :: rest => if k2 = k then (k2, f v) :: rest else (k2, v) :: amodify k f rest

/-- Remove every binding of `k` (models `os.rename` removing the source path). -/
def aerase {α : Type} (k : String) (m : AssocL α) : AssocL α :=
  m.filter (fun p => p.1 ≠ k)

/-! ### Data model (§3 of the module: results structure) -/

/-- Per-version counters, created lazily in `record_result`. -/
structure VersionStats where
  tested_count : Nat
  correct_count : Nat
  timestamp : String
deriving Repr, DecidableEq

/-- A single recorded verdict for one (title, version) pair. -/
structure TitleVerdict where
  is_correct : Bool
  parsed_result : AssocL String
  notes : String
  timestamp : String
deriving Repr, DecidableEq

/-- The persisted results document: `{"versions": {...}, "titles": {...}}`. -/
structure ResultsDocument where
  versions : AssocL VersionStats
  titles : AssocL (AssocL TitleVerdict)
deriving Repr, DecidableEq

/-- Model of `TorrentTester._create_new_results`. -/
def create_new_results : ResultsDocument := ⟨[], []⟩

/-- Field `tested_count` of `versions[v]`, zero when the version is unseen. -/
def testedCount (doc : ResultsDocument) (v : String) : Nat :=
  ((alookup v doc.versions).map VersionStats.tested_count).getD 0

/-- Field `correct_count` of `versions[v]`, zero when the version is unseen. -/
def correctCount (doc : ResultsDocument) (v : String) : Nat :=
  ((alookup v doc.versions).map VersionStats.correct_count).getD 0

/-- The verdict stored under `titles[t][v]`, if any. -/
def verdictOf (doc : ResultsDocument) (t v : String) : Option TitleVerdict :=
  alookup v ((alookup t doc.titles).getD [])

/-- Test `title in results["titles"] and version in results["titles"][title]`. -/
def hasVerdict (doc : ResultsDocument) (t v : String) : Bool :=
  match alookup t doc.titles with
  | none => false
  | some m => acontains v m

/-- Model of `TorrentTester.record_result` (lines 114-150): lazily create the version
entry, lazily create the title entry, overwrite `titles[title][version]` with
the new verdict, then increment `tested_count` and, when correct,
`correct_count`, on every call. -/
def record_result (doc : ResultsDocument) (library_version title : String)
    (parsed_result : AssocL String) (is_correct : Bool) (notes : String)
    (now : String) : ResultsDocument :=
  let versions1 :=
    if acontains library_version doc.versions then doc.versions
    else aset library_version ⟨0, 0, now⟩ doc.versions
  let titles1 :=
    if acontains title doc.titles then doc.titles
    else aset title [] doc.titles
  let titles2 :=
    amodify title (fun m => aset library_version ⟨is_correct, parsed_result, notes, now⟩ m) titles1
  let versions2 :=
    amodify library_version
      (fun s => { s with
        tested_count := s.tested_count + 1,
        correct_count := s.correct_count + (if is_correct then 1 else 0) })
      versions1
  ⟨versions2, titles2⟩

/-- Model of `TorrentTester.get_previously_tested_titles` (lines 152-154). -/
def get_previously_tested_titles (doc : ResultsDocument) : List String :=
  doc.titles.map Prod.fst

/-- Model of `TorrentTester.get_random_untested_title` (lines 86-100); `random.choice`
is modelled by an explicit index `pick`, reduced modulo the candidate count. -/
def get_random_untested_title (torrent_titles : List String)
    (doc : ResultsDocument) (library_version : String) (pick : Nat) : Option String :=
  let untested_titles :=
    torrent_titles.filter (fun title => !hasVerdict doc title library_version)
  if untested_titles = [] then none
  else some (untested_titles.getD (pick % untested_titles.length) "")

/-! ### Statistics (`TorrentTester.print_statistics`, lines 156-188) -/

/-- The quantities printed by `print_statistics`; `accuracy` is `none` when
`tested_count == 0` (the accuracy line is omitted, no division happens). -/
structure StatsSnapshot where
  total_titles : Nat
  total_tested_titles : Nat
  tested_this_version : Nat
  correct_this_version : Nat
  accuracy : Option ℚ
  untested_count : Nat
deriving Repr, DecidableEq

/-- Model of `TorrentTester.print_statistics`: returns `none` in single-title mode
(empty dataset, stats are skipped), otherwise the printed snapshot. -/
def print_statistics (torrent_titles : List String) (doc : ResultsDocument)
    (library_version : String) : Option StatsSnapshot :=
  if torrent_titles = [] then none
  else
    let tested_this_version := testedCount doc library_version
    let correct_this_version := correctCount doc library_version
    some
      { total_titles := torrent_titles.length
        total_tested_titles := doc.titles.length
        tested_this_version := tested_this_version
        correct_this_version := correct_this_version
        accuracy :=
          if tested_this_version > 0 then
            some ((correct_this_version : ℚ) / (tested_this_version : ℚ) * 100)
          else none
        untested_count :=
          (torrent_titles.filter
            (fun title => !hasVerdict doc title library_version)).length }

/-! ### Persistence (`_load_results` / `_backup_results`, lines 48-76)

The file system is modelled as an association list from path to file
content; JSON decoding is an external collaborator and is passed in as an
abstract `jsonParse` that yields `none` exactly when `json.load` would raise
`JSONDecodeError`. -/

/-- Backup path built by `_backup_results`:
`f"{results_path}.bak.{timestamp}"`. -/
def backup_path (results_path now : String) : String :=
  results_path ++ ".bak." ++ now

/-- Model of `TorrentTester._backup_results`: `os.rename` the results file, if it
exists, to the timestamped backup path. -/
def backup_results (fs : AssocL String) (results_path now : String) : AssocL String :=
  match alookup results_path fs with
  | none => fs
  | some content => aset (backup_path results_path now) content (aerase results_path fs)

/-- Model of `TorrentTester._load_results`: missing file yields a fresh empty
document; unparsable content is backed up and a fresh empty document is
returned; parsable content is returned as loaded.  Returns the document
together with the resulting file system. -/
def load_results (jsonParse : String → Option ResultsDocument)
    (fs : AssocL String) (results_path now : String) :
    ResultsDocument × AssocL String :=
  match alookup results_path fs with
  | none => (create_new_results, fs)
  | some content =>
    match jsonParse content with
    | some doc => (doc, fs)
    | none => (create_new_results, backup_results fs results_path now)

/-! ### Interactive session (`interactive_testing`, lines 239-327)

Operator input is a finite script; `KeyboardInterrupt` (and end of input
while the process would block) is the `interrupt` token.  The observable
side effects relevant to the claims are collected in an event trace.
`random.choice` / `random.shuffle` outcomes enter as the `picks` stream and
the pre-shuffled retest list. -/

/-- Model of Python str.lower (String.toLower maps Char.toLower over the
characters; this formulation is kernel-computable). -/
def strToLower (s : String) : String := ⟨s.data.map Char.toLower⟩

/-- One operator interaction: a typed line, or an external interruption. -/
inductive Input where
  | line (s : String)
  | interrupt
deriving Repr, DecidableEq

/-- Observable session effects. -/
inductive Event where
  | record (title : String) (is_correct : Bool)
  | save
  | stats
  | askContinue
deriving Repr, DecidableEq

/-- How the session loop ended. -/
inductive ExitKind where
  | done
  | quit
  | interrupted
deriving Repr, DecidableEq

/-- One raw `input()` call: `none` when interrupted (or blocked forever). -/
def readLine : List Input → Option (String × List Input)
  | [] => none
  | Input.interrupt :: _ => none
  | Input.line s :: rest => some (s, rest)

/-- The verdict prompt loop (lines 284-288): lowercase the response and
re-prompt until it is one of `y`, `n`, `s`, `q` or empty. -/
def get_verdict_response : List Input → Option (String × List Input)
  | [] => none
  | Input.interrupt :: _ => none
  | Input.line s :: rest =>
    let r := strToLower s
    if r = "y" ∨ r = "n" ∨ r = "s" ∨ r = "q" ∨ r = "" then some (r, rest)
    else get_verdict_response rest

/-- Candidate selection for one round: retest mode indexes the pre-shuffled
list by the round counter (lines 259-264); fresh mode samples an untested
title (lines 266-269). -/
def select_title (torrent_titles : List String) (library_version : String)
    (retest_list : Option (List String)) (doc : ResultsDocument)
    (pick count : Nat) : Option String :=
  match retest_list with
  | some ts => ts[count]?
  | none => get_random_untested_title torrent_titles doc library_version pick

/-- The body of `interactive_testing`'s `while True` loop (the code inside
`try`).  Fuel bounds the recursion; each iteration consumes at least one
input, so `inputs.length + 1` fuel is never exhausted.  Returns the final
document, the emitted event trace and the exit route. -/
def session_body (torrent_titles : List String) (library_version : String)
    (parseFn : String → AssocL String) (now : String)
    (retest_list : Option (List String)) :
    Nat → List Nat → List Input → ResultsDocument → Nat →
    ResultsDocument × List Event × ExitKind
  | 0, _, _, doc, _ => (doc, [], ExitKind.interrupted)
  | fuel + 1, picks, inputs, doc, count =>
    match select_title torrent_titles library_version retest_list doc
        (picks.headD 0) count with
    | none => (doc, [], ExitKind.done)
    | some title =>
      let parsed_result := parseFn title
      match get_verdict_response inputs with
      | none => (doc, [], ExitKind.interrupted)
      | some (response, rest) =>
        if response = "q" then (doc, [], ExitKind.quit)
        else if response = "s" then
          session_body torrent_titles library_version parseFn now retest_list
            fuel picks.tail rest doc (count + 1)
        else
          let is_correct := response == "y" || response == ""
          match (if is_correct then some ("", rest) else readLine rest) with
          | none => (doc, [], ExitKind.interrupted)
          | some (notes, rest2) =>
            let doc2 := record_result doc library_version title parsed_result
              is_correct notes now
            let count2 := count + 1
            let evs :=
              [Event.record title is_correct, Event.save] ++
                (if count2 % 5 = 0 then [Event.stats] else [])
            if count2 % 10 = 0 then
              match readLine rest2 with
              | none => (doc2, evs ++ [Event.askContinue], ExitKind.interrupted)
              | some (c, rest3) =>
                if strToLower c = "" ∨ strToLower c = "y" then
                  let r := session_body torrent_titles library_version parseFn
                    now retest_list fuel picks.tail rest3 doc2 count2
                  (r.1, evs ++ [Event.askContinue] ++ r.2.1, r.2.2)
                else (doc2, evs ++ [Event.askContinue], ExitKind.quit)
            else
              let r := session_body torrent_titles library_version parseFn
                now retest_list fuel picks.tail rest2 doc2 count2
              (r.1, evs ++ r.2.1, r.2.2)

/-- Model of `interactive_testing`: run the loop body under `try`, then — on every
exit route, `finally` — save the results and print statistics. -/
def interactive_testing (torrent_titles : List String)
    (library_version : String) (parseFn : String → AssocL String)
    (now : String) (retest_list : Option (List String)) (picks : List Nat)
    (inputs : List Input) (doc : ResultsDocument) :
    ResultsDocument × List Event × ExitKind :=
  let r := session_body torrent_titles library_version parseFn now retest_list
    (inputs.length + 1) picks inputs doc 0
  (r.1, r.2.1 ++ [Event.save, Event.stats], r.2.2)

/-! ### Reachability by `record_result` calls, and concrete example data -/

/-- One `record_result` call description. -/
structure RecordCall where
  library_version : String
  title : String
  parsed_result : AssocL String
  is_correct : Bool
  notes : String
  now : String

/-- Replay a sequence of `record_result` calls from the empty document. -/
def apply_calls (calls : List RecordCall) : ResultsDocument :=
  calls.foldl
    (fun d c =>
      record_result d c.library_version c.title c.parsed_result c.is_correct
        c.notes c.now)
    create_new_results

/-- Every version entry of the document satisfies
`correct_count ≤ tested_count`. -/
def VersionCountsOk (doc : ResultsDocument) : Prop :=
  ∀ p ∈ doc.versions, p.2.correct_count ≤ p.2.tested_count

/-- Example document: one verdict recorded for ("a", "dev"). -/
def docA : ResultsDocument :=
  record_result create_new_results "dev" "a" [] true "" "t0"

/-- Example document: the ("a", "dev") verdict of `docA` recorded again. -/
def docAA : ResultsDocument :=
  record_result docA "dev" "a" [] true "" "t1"

/-- The snapshot printed for dataset ["a", "b"], document `docAA`, version
"dev". -/
def snapAA : StatsSnapshot :=
  { total_titles := 2
    total_tested_titles := 1
    tested_this_version := 2
    correct_this_version := 2
    accuracy := some 100
    untested_count := 1 }

/-- The snapshot printed for dataset ["a", "b"], document `docA`, version
"dev". -/
def snapA : StatsSnapshot :=
  { total_titles := 2
    total_tested_titles := 1
    tested_this_version := 1
    correct_this_version := 1
    accuracy := some 100
    untested_count := 1 }

/-! ### Association-list lemmas -/

theorem alookup_aset_self {α : Type} (k : String) (v : α) (m : AssocL α) :
    alookup k (aset k v m) = some v := by
  induction m with
  | nil => simp [aset, alookup]
  | cons p rest ih =>
    obtain ⟨k2, w⟩ := p
    by_cases h : k2 = k
    · simp [aset, alookup, h]
    · simp [aset, alookup, h, ih]

theorem alookup_aset_ne {α : Type} {k' k : String} (h : k' ≠ k) (v : α)
    (m : AssocL α) : alookup k' (aset k v m) = alookup k' m := by
  induction m with
  | nil => simp [aset, alookup, Ne.symm h]
  | cons p rest ih =>
    obtain ⟨k2, w⟩ := p
    by_cases hk : k2 = k
    · subst hk
      simp [aset, alookup, Ne.symm h]
    · simp only [aset, if_neg hk]
      by_cases hk' : k2 = k'
      · simp [alookup, hk']
      · simp [alookup, hk', ih]

theorem alookup_amodify_self {α : Type} (k : String) (f : α → α) (m : AssocL α) :
    alookup k (amodify k f m) = (alookup k m).map f := by
  induction m with
  | nil => simp [amodify, alookup]
  | cons p rest ih =>
    obtain ⟨k2, w⟩ := p
    by_cases h : k2 = k
    · simp [amodify, alookup, h]
    · simp [amodify, alookup, h, ih]

theorem alookup_amodify_ne {α : Type} {k' k : String} (h : k' ≠ k) (f : α → α)
    (m : AssocL α) : alookup k' (amodify k f m) = alookup k' m := by
  induction m with
  | nil => simp [amodify, alookup]
  | cons p rest ih =>
    obtain ⟨k2, w⟩ := p
    by_cases hk : k2 = k
    · subst hk
      simp [amodify, alookup, Ne.symm h]
    · simp only [amodify, if_neg hk]
      by_cases hk' : k2 = k'
      · simp [alookup, hk']
      · simp [alookup, hk', ih]

theorem keys_amodify {α : Type} (k : String) (f : α → α) (m : AssocL α) :
    (amodify k f m).map Prod.fst = m.map Prod.fst := by
  induction m with
  | nil => simp [amodify]
  | cons p rest ih =>
    obtain ⟨k2, w⟩ := p
    by_cases h : k2 = k
    · simp [amodify, h]
    · simp [amodify, h, ih]

theorem keys_aset_of_lookup {α : Type} {k : String} {m : AssocL α}
    (h : (alookup k m).isSome = true) (v : α) :
    (aset k v m).map Prod.fst = m.map Prod.fst := by
  induction m with
  | nil => simp [alookup] at h
  | cons p rest ih =>
    obtain ⟨k2, w⟩ := p
    by_cases hk : k2 = k
    · simp [aset, hk]
    · simp only [alookup, if_neg hk] at h
      simp [aset, hk, ih h]

theorem mem_keys_aset_self {α : Type} (k : String) (v : α) (m : AssocL α) :
    k ∈ (aset k v m).map Prod.fst := by
  induction m with
  | nil => simp [aset]
  | cons p rest ih =>
    obtain ⟨k2, w⟩ := p
    by_cases h : k2 = k
    · simp [aset, h]
    · simp [aset, h]
      right
      simpa using ih

theorem alookup_mem {α : Type} {k : String} {x : α} :
    ∀ {m : AssocL α}, alookup k m = some x → (k, x) ∈ m := by
  intro m
  induction m with
  | nil => intro h; simp [alookup] at h
  | cons p rest ih =>
    obtain ⟨k2, w⟩ := p
    intro h
    by_cases hk : k2 = k
    · subst hk
      simp [alookup] at h
      simp [h]
    · simp only [alookup, if_neg hk] at h
      exact List.mem_cons_of_mem _ (ih h)

theorem mem_aset {α : Type} {p : String × α} {k : String} {v : α}
    {m : AssocL α} (hp : p ∈ aset k v m) : p ∈ m ∨ p = (k, v) := by
  induction m with
  | nil => simpa [aset] using hp
  | cons q rest ih =>
    obtain ⟨k2, w⟩ := q
    by_cases h : k2 = k
    · subst h
      rcases (by simpa [aset] using hp : p = (k2, v) ∨ p ∈ rest) with h1 | h1
      · exact Or.inr h1
      · exact Or.inl (List.mem_cons_of_mem _ h1)
    · rcases (by simpa [aset, h] using hp : p = (k2, w) ∨ p ∈ aset k v rest) with h1 | h1
      · exact Or.inl (by simp [h1])
      · rcases ih h1 with h2 | h2
        · exact Or.inl (List.mem_cons_of_mem _ h2)
        · exact Or.inr h2

theorem mem_amodify {α : Type} {p : String × α} {k : String} {f : α → α}
    {m : AssocL α} (hp : p ∈ amodify k f m) :
    p ∈ m ∨ ∃ w, (p.1, w) ∈ m ∧ p.2 = f w := by
  induction m with
  | nil => simp [amodify] at hp
  | cons q rest ih =>
    obtain ⟨k2, w⟩ := q
    by_cases h : k2 = k
    · subst h
      rcases (by simpa [amodify] using hp : p = (k2, f w) ∨ p ∈ rest) with h1 | h1
      · exact Or.inr ⟨w, by simp [h1], by simp [h1]⟩
      · exact Or.inl (List.mem_cons_of_mem _ h1)
    · rcases (by simpa [amodify, h] using hp : p = (k2, w) ∨ p ∈ amodify k f rest)
        with h1 | h1
      · exact Or.inl (by simp [h1])
      · rcases ih h1 with h2 | h2
        · exact Or.inl (List.mem_cons_of_mem _ h2)
        · obtain ⟨w0, hw, he⟩ := h2
          exact Or.inr ⟨w0, List.mem_cons_of_mem _ hw, he⟩

theorem alookup_aerase_self {α : Type} (k : String) (m : AssocL α) :
    alookup k (aerase k m) = none := by
  induction m with
  | nil => simp [aerase, alookup]
  | cons p rest ih =>
    obtain ⟨k2, w⟩ := p
    by_cases h : k2 = k
    · simpa [aerase, h] using ih
    · simpa [aerase, alookup, h] using ih

/-! ### Structure of `record_result` -/

theorem record_result_versions_self (doc : ResultsDocument)
    (v t : String) (pr : AssocL String) (ic : Bool) (notes now : String) :
    alookup v (record_result doc v t pr ic notes now).versions =
      some ⟨testedCount doc v + 1,
            correctCount doc v + (if ic then 1 else 0),
            ((alookup v doc.versions).map VersionStats.timestamp).getD now⟩ := by
  unfold record_result
  by_cases h : acontains v doc.versions
  · obtain ⟨s, hs⟩ := Option.isSome_iff_exists.mp (by simpa [acontains] using h)
    simp [h, alookup_amodify_self, hs, testedCount, correctCount]
  · have hs : alookup v doc.versions = none :=
      Option.not_isSome_iff_eq_none.mp (by simpa [acontains] using h)
    simp [h, alookup_amodify_self, alookup_aset_self, hs, testedCount, correctCount]

theorem record_result_versions_ne {v' v : String} (h : v' ≠ v)
    (doc : ResultsDocument) (t : String) (pr : AssocL String) (ic : Bool)
    (notes now : String) :
    alookup v' (record_result doc v t pr ic notes now).versions =
      alookup v' doc.versions := by
  unfold record_result
  by_cases hc : acontains v doc.versions
  · simp [hc, alookup_amodify_ne h]
  · simp [hc, alookup_amodify_ne h, alookup_aset_ne h]

theorem record_result_titles_self (doc : ResultsDocument)
    (v t : String) (pr : AssocL String) (ic : Bool) (notes now : String) :
    alookup t (record_result doc v t pr ic notes now).titles =
      some (aset v ⟨ic, pr, notes, now⟩ ((alookup t doc.titles).getD [])) := by
  unfold record_result
  by_cases hc : acontains t doc.titles
  · obtain ⟨m, hm⟩ := Option.isSome_iff_exists.mp (by simpa [acontains] using hc)
    simp [hc, alookup_amodify_self, hm]
  · have hm : alookup t doc.titles = none :=
      Option.not_isSome_iff_eq_none.mp (by simpa [acontains] using hc)
    simp [hc, alookup_amodify_self, alookup_aset_self, hm]

theorem record_result_titles_ne {t' t : String} (h : t' ≠ t)
    (doc : ResultsDocument) (v : String) (pr : AssocL String) (ic : Bool)
    (notes now : String) :
    alookup t' (record_result doc v t pr ic notes now).titles =
      alookup t' doc.titles := by
  unfold record_result
  by_cases hc : acontains t doc.titles
  · simp [hc, alookup_amodify_ne h]
  · simp [hc, alookup_amodify_ne h, alookup_aset_ne h]

theorem mem_keys_record_result (doc : ResultsDocument)
    (v t : String) (pr : AssocL String) (ic : Bool) (notes now : String) :
    t ∈ get_previously_tested_titles (record_result doc v t pr ic notes now) := by
  unfold get_previously_tested_titles record_result
  by_cases hc : acontains t doc.titles
  · obtain ⟨m, hm⟩ := Option.isSome_iff_exists.mp (by simpa [acontains] using hc)
    simp only [hc, if_true, keys_amodify]
    exact List.mem_map.mpr ⟨(t, m), alookup_mem hm, rfl⟩
  · simp only [hc, if_false, keys_amodify, Bool.false_eq_true]
    exact mem_keys_aset_self t [] doc.titles

theorem keys_record_result_of_contains {doc : ResultsDocument} {t : String}
    (hc : acontains t doc.titles = true) (v : String) (pr : AssocL String)
    (ic : Bool) (notes now : String) :
    get_previously_tested_titles (record_result doc v t pr ic notes now) =
      get_previously_tested_titles doc := by
  unfold get_previously_tested_titles record_result
  simp [hc, keys_amodify]

theorem hasVerdict_eq_true_iff {doc : ResultsDocument} {t v : String} :
    hasVerdict doc t v = true ↔
      ∃ m, alookup t doc.titles = some m ∧ acontains v m = true := by
  unfold hasVerdict
  cases h : alookup t doc.titles <;> simp [h]

theorem record_result_preserves_counts {doc : ResultsDocument}
    (h : VersionCountsOk doc) (v t : String) (pr : AssocL String) (ic : Bool)
    (notes now : String) :
    VersionCountsOk (record_result doc v t pr ic notes now) := by
  intro p hp
  have h1 : ∀ q : String × VersionStats,
      q ∈ (if acontains v doc.versions then doc.versions
           else aset v ⟨0, 0, now⟩ doc.versions) →
      q.2.correct_count ≤ q.2.tested_count := by
    intro q hq
    by_cases hc : acontains v doc.versions
    · exact h q (by simpa [hc] using hq)
    · rcases mem_aset (by simpa [hc] using hq) with h2 | h2
      · exact h q h2
      · simp [h2]
  have hp' : p ∈ amodify v
      (fun s => { s with
        tested_count := s.tested_count + 1,
        correct_count := s.correct_count + (if ic then 1 else 0) })
      (if acontains v doc.versions then doc.versions
       else aset v ⟨0, 0, now⟩ doc.versions) := hp
  rcases mem_amodify hp' with h2 | ⟨w, hw, he⟩
  · exact h1 p h2
  · have hw' : w.correct_count ≤ w.tested_count := h1 (p.1, w) hw
    rw [he]
    cases ic <;> simp <;> omega

theorem apply_calls_counts_ok (calls : List RecordCall) :
    VersionCountsOk (apply_calls calls) := by
  suffices h : ∀ d, VersionCountsOk d →
      VersionCountsOk (calls.foldl
        (fun d c =>
          record_result d c.library_version c.title c.parsed_result
            c.is_correct c.notes c.now)
        d) by
    exact h create_new_results (by intro p hp; simp [create_new_results] at hp)
  induction calls with
  | nil => intro d hd; exact hd
  | cons c rest ih =>
    intro d hd
    exact ih _ (record_result_preserves_counts hd _ _ _ _ _ _)

theorem length_filter_not (p : String → Bool) (ds : List String) :
    (ds.filter (fun t => !p t)).length = ds.length - ds.countP p := by
  induction ds with
  | nil => simp
  | cons a l ih =>
    have hle : l.countP p ≤ l.length := List.countP_le_length p
    by_cases h : p a
    · simp [h, List.countP_cons, ih]
    · simp [h, List.countP_cons, ih]
      omega

theorem backup_path_ne (rp now : String) : backup_path rp now ≠ rp := by
  intro h
  have hlen := congrArg String.length h
  have h5 : (".bak." : String).length = 5 := rfl
  simp [backup_path, String.length_append, h5] at hlen
  omega

/-! ### The claims -/

/-- C1: after a call to `record_result(t, parsed_result, is_correct, notes)`
for version `v`, `get_previously_tested_titles()` includes `t`,
`versions[v].tested_count` is exactly 1 greater than before the call, and
`correct_count` is exactly 1 greater iff `is_correct` is true — on every
call, including calls that overwrite an existing verdict for `(t, v)`. -/
theorem record_result_registers_and_increments (doc : ResultsDocument)
    (v t : String) (pr : AssocL String) (ic : Bool) (notes now : String) :
    t ∈ get_previously_tested_titles (record_result doc v t pr ic notes now) ∧
    testedCount (record_result doc v t pr ic notes now) v
      = testedCount doc v + 1 ∧
    correctCount (record_result doc v t pr ic notes now) v
      = correctCount doc v + (if ic then 1 else 0) ∧
    (correctCount (record_result doc v t pr ic notes now) v
      = correctCount doc v + 1 ↔ ic = true) := by
  refine ⟨mem_keys_record_result doc v t pr ic notes now, ?_, ?_, ?_⟩
  · simp [testedCount, record_result_versions_self]
  · simp [correctCount, record_result_versions_self]
  · cases ic <;> simp [correctCount, record_result_versions_self]

/-- C2 counterexample: in `docA` the pair ("a", "dev") already has a
verdict, yet recording it again changes `tested_count` (from 1 to 2) — the
claim that counters are not incremented a second time is false. -/
theorem rerecord_counterexample :
    hasVerdict docA "a" "dev" = true ∧
    testedCount docAA "dev" ≠ testedCount docA "dev" ∧
    correctCount docAA "dev" ≠ correctCount docA "dev" := by
  decide

/-- C2 amended: for a document already containing a verdict for `(t, v)`,
recording a new verdict replaces the stored `TitleVerdict` in place (the
lookup yields the new verdict and neither the title keys nor the per-title
version keys change, so there is still exactly one verdict per pair), and it
DOES increment `versions[v].tested_count` — and `correct_count` when correct
— a second time, as on every call. -/
theorem rerecord_overwrites_in_place (doc : ResultsDocument)
    (v t : String) (pr : AssocL String) (ic : Bool) (notes now : String)
    (h : hasVerdict doc t v = true) :
    verdictOf (record_result doc v t pr ic notes now) t v
      = some ⟨ic, pr, notes, now⟩ ∧
    ((alookup t (record_result doc v t pr ic notes now).titles).getD
        []).map Prod.fst
      = ((alookup t doc.titles).getD []).map Prod.fst ∧
    get_previously_tested_titles (record_result doc v t pr ic notes now)
      = get_previously_tested_titles doc ∧
    testedCount (record_result doc v t pr ic notes now) v
      = testedCount doc v + 1 ∧
    correctCount (record_result doc v t pr ic notes now) v
      = correctCount doc v + (if ic then 1 else 0) := by
  obtain ⟨m, hm, hv⟩ := hasVerdict_eq_true_iff.mp h
  refine ⟨?_, ?_, ?_, ?_, ?_⟩
  · simp [verdictOf, record_result_titles_self, alookup_aset_self]
  · simp only [record_result_titles_self, Option.getD_some, hm]
    exact keys_aset_of_lookup (by simpa [acontains] using hv) _
  · exact keys_record_result_of_contains (by simp [acontains, hm]) v pr ic notes now
  · simp [testedCount, record_result_versions_self]
  · simp [correctCount, record_result_versions_self]

/-- Witness for the amended C2, at the concrete re-recording `docAA`. -/
theorem rerecord_overwrites_in_place_witness :
    verdictOf (record_result docA "dev" "a" [] true "" "t1") "a" "dev"
      = some ⟨true, [], "", "t1"⟩ :=
  (rerecord_overwrites_in_place docA "dev" "a" [] true "" "t1" (by decide)).1

/-- C6: every document reachable from the empty document by `record_result`
calls satisfies `0 ≤ correct_count ≤ tested_count` for every present
version, and no `record_result` call ever decreases either counter. -/
theorem counters_invariant_and_monotone :
    (∀ (calls : List RecordCall) (v : String) (s : VersionStats),
      alookup v (apply_calls calls).versions = some s →
      s.correct_count ≤ s.tested_count) ∧
    (∀ (doc : ResultsDocument) (v t : String) (pr : AssocL String) (ic : Bool)
      (notes now v' : String),
      testedCount doc v' ≤ testedCount (record_result doc v t pr ic notes now) v' ∧
      correctCount doc v' ≤ correctCount (record_result doc v t pr ic notes now) v') := by
  constructor
  · intro calls v s hs
    exact apply_calls_counts_ok calls (v, s) (alookup_mem hs)
  · intro doc v t pr ic notes now v'
    by_cases h : v' = v
    · subst h
      constructor
      · simp [testedCount, record_result_versions_self]
      · cases ic <;> simp [correctCount, record_result_versions_self]
    · constructor <;>
        simp [testedCount, correctCount, record_result_versions_ne h]

/-- Witness for C6 at a concrete one-call reachable document. -/
theorem counters_invariant_witness :
    (VersionStats.mk 1 1 "t0").correct_count
      ≤ (VersionStats.mk 1 1 "t0").tested_count :=
  counters_invariant_and_monotone.1 [⟨"dev", "a", [], true, "", "t0"⟩] "dev"
    ⟨1, 1, "t0"⟩ (by decide)

/-- C10: `record_result` for `(t, v)` modifies only `titles[t][v]` and
`versions[v]`: every other title's entry, every other version's verdict
under `t`, and every other version's stats are unchanged, and an existing
`versions[v]` entry keeps its original timestamp. -/
theorem record_result_frame (doc : ResultsDocument)
    (v t : String) (pr : AssocL String) (ic : Bool) (notes now : String) :
    (∀ t', t' ≠ t →
      alookup t' (record_result doc v t pr ic notes now).titles
        = alookup t' doc.titles) ∧
    (∀ v', v' ≠ v →
      verdictOf (record_result doc v t pr ic notes now) t v'
        = verdictOf doc t v') ∧
    (∀ v', v' ≠ v →
      alookup v' (record_result doc v t pr ic notes now).versions
        = alookup v' doc.versions) ∧
    (∀ s, alookup v doc.versions = some s →
      ∃ s', alookup v (record_result doc v t pr ic notes now).versions = some s'
        ∧ s'.timestamp = s.timestamp) := by
  refine ⟨fun t' h => record_result_titles_ne h doc v pr ic notes now, ?_,
    fun v' h => record_result_versions_ne h doc t pr ic notes now, ?_⟩
  · intro v' h
    simp [verdictOf, record_result_titles_self, alookup_aset_ne h]
  · intro s hs
    exact ⟨_, record_result_versions_self doc v t pr ic notes now, by simp [hs]⟩

/-- Witness for C10: recording ("a", "dev") again leaves title "b" and
version "other" untouched and keeps the original "dev" timestamp. -/
theorem record_result_frame_witness :
    alookup "b" (record_result docA "dev" "a" [] true "" "t1").titles
      = alookup "b" docA.titles ∧
    alookup "other" (record_result docA "dev" "a" [] true "" "t1").versions
      = alookup "other" docA.versions := by
  have h := record_result_frame docA "dev" "a" [] true "" "t1"
  exact ⟨h.1 "b" (by decide), h.2.2.1 "other" (by decide)⟩

/-- C3: `get_random_untested_title` returns `none` iff every dataset title
has an entry for the current version; any returned title comes from the
dataset and has no entry for the current version — for every possible
random draw. -/
theorem get_random_untested_title_spec (ds : List String)
    (doc : ResultsDocument) (v : String) (pick : Nat) :
    (get_random_untested_title ds doc v pick = none ↔
      ∀ t ∈ ds, hasVerdict doc t v = true) ∧
    (∀ t, get_random_untested_title ds doc v pick = some t →
      t ∈ ds ∧ hasVerdict doc t v = false) := by
  simp only [get_random_untested_title]
  by_cases h : ds.filter (fun title => !hasVerdict doc title v) = []
  · rw [if_pos h]
    refine ⟨⟨fun _ t ht => ?_, fun _ => rfl⟩, fun t ht => Option.noConfusion ht⟩
    have h2 := List.filter_eq_nil_iff.mp h t ht
    simpa using h2
  · rw [if_neg h]
    have hlen : 0 < (ds.filter (fun title => !hasVerdict doc title v)).length :=
      List.length_pos.mpr h
    have hidx : pick % (ds.filter (fun title => !hasVerdict doc title v)).length
        < (ds.filter (fun title => !hasVerdict doc title v)).length :=
      Nat.mod_lt _ hlen
    have hget : (ds.filter (fun title => !hasVerdict doc title v)).getD
        (pick % (ds.filter (fun title => !hasVerdict doc title v)).length) ""
        ∈ ds.filter (fun title => !hasVerdict doc title v) := by
      rw [List.getD_eq_getElem _ _ hidx]
      exact List.getElem_mem hidx
    have hmem := List.mem_filter.mp hget
    constructor
    · exact ⟨fun habs => Option.noConfusion habs,
        fun hall => absurd (hall _ hmem.1) (by simpa using hmem.2)⟩
    · intro t ht
      obtain rfl := (Option.some_inj.mp ht).symm
      exact ⟨hmem.1, by simpa using hmem.2⟩

/-- Witness for C3: with document `docA`, on dataset ["a", "b"] the sampler
returns "b", which is in the dataset and untested for "dev". -/
theorem get_random_untested_title_spec_witness :
    "b" ∈ ["a", "b"] ∧ hasVerdict docA "b" "dev" = false :=
  (get_random_untested_title_spec ["a", "b"] docA "dev" 0).2 "b" (by decide)

/-- C4: loading never fails: a missing results file yields the fresh empty
document with the file system untouched; malformed content is moved to the
timestamped backup path (the results path becomes vacant) and the fresh
empty document is returned; well-formed content is returned as parsed. -/
theorem load_results_spec (jsonParse : String → Option ResultsDocument)
    (fs : AssocL String) (rp now : String) :
    (alookup rp fs = none →
      load_results jsonParse fs rp now = (create_new_results, fs)) ∧
    (∀ s, alookup rp fs = some s → jsonParse s = none →
      (load_results jsonParse fs rp now).1 = create_new_results ∧
      alookup rp (load_results jsonParse fs rp now).2 = none ∧
      alookup (backup_path rp now) (load_results jsonParse fs rp now).2
        = some s) ∧
    (∀ s d, alookup rp fs = some s → jsonParse s = some d →
      load_results jsonParse fs rp now = (d, fs)) := by
  refine ⟨?_, ?_, ?_⟩
  · intro h
    simp [load_results, h]
  · intro s hs hp
    have hload : load_results jsonParse fs rp now
        = (create_new_results, aset (backup_path rp now) s (aerase rp fs)) := by
      simp [load_results, hs, hp, backup_results]
    rw [hload]
    refine ⟨rfl, ?_, ?_⟩
    · rw [alookup_aset_ne (Ne.symm (backup_path_ne rp now))]
      exact alookup_aerase_self rp fs
    · exact alookup_aset_self _ _ _
  · intro s d hs hp
    simp [load_results, hs, hp]

/-- Witness for C4 at a concrete corrupt store. -/
theorem load_results_spec_witness :
    (load_results (fun _ => none) [("res", "bad")] "res" "20250101").1
      = create_new_results ∧
    alookup "res"
      (load_results (fun _ => none) [("res", "bad")] "res" "20250101").2
      = none ∧
    alookup (backup_path "res" "20250101")
      (load_results (fun _ => none) [("res", "bad")] "res" "20250101").2
      = some "bad" :=
  (load_results_spec (fun _ => none) [("res", "bad")] "res" "20250101").2.1
    "bad" (by decide) rfl

theorem print_statistics_docA_eval :
    print_statistics ["a", "b"] docA "dev" = some snapA := by
  have hne : (["a", "b"] : List String) ≠ [] := by decide
  have h1 : testedCount docA "dev" = 1 := by decide
  have h2 : correctCount docA "dev" = 1 := by decide
  have h3 : docA.titles.length = 1 := by decide
  have h4 : ((["a", "b"] : List String).filter
      (fun t => !hasVerdict docA t "dev")).length = 1 := by decide
  simp only [print_statistics, if_neg hne, snapA, Option.some_inj,
    StatsSnapshot.mk.injEq, h1, h2, h3, h4]
  norm_num

theorem print_statistics_docAA_eval :
    print_statistics ["a", "b"] docAA "dev" = some snapAA := by
  have hne : (["a", "b"] : List String) ≠ [] := by decide
  have h1 : testedCount docAA "dev" = 2 := by decide
  have h2 : correctCount docAA "dev" = 2 := by decide
  have h3 : docAA.titles.length = 1 := by decide
  have h4 : ((["a", "b"] : List String).filter
      (fun t => !hasVerdict docAA t "dev")).length = 1 := by decide
  simp only [print_statistics, if_neg hne, snapAA, Option.some_inj,
    StatsSnapshot.mk.injEq, h1, h2, h3, h4]
  norm_num

/-- C5: the statistics report computes accuracy only when
`tested_count > 0` (the accuracy line is omitted when it is 0, with no
division), and under the data-model invariant
`correct_count ≤ tested_count` any defined accuracy lies in [0, 100]. -/
theorem accuracy_defined_and_bounded (ds : List String)
    (doc : ResultsDocument) (v : String) (snap : StatsSnapshot)
    (hsnap : print_statistics ds doc v = some snap)
    (hinv : correctCount doc v ≤ testedCount doc v) :
    (snap.accuracy = none ↔ snap.tested_this_version = 0) ∧
    (∀ q, snap.accuracy = some q → 0 ≤ q ∧ q ≤ 100) := by
  simp only [print_statistics] at hsnap
  by_cases hds : ds = []
  · simp [hds] at hsnap
  · rw [if_neg hds] at hsnap
    have h2 := Option.some_inj.mp hsnap
    subst h2
    constructor
    · by_cases ht : testedCount doc v > 0 <;> simp [ht] <;> omega
    · intro q hq
      by_cases ht : testedCount doc v > 0
      · simp only [ht, if_pos, Option.some_inj] at hq
        subst hq
        refine ⟨by positivity, ?_⟩
        have h1 : (correctCount doc v : ℚ) ≤ (testedCount doc v : ℚ) := by
          exact_mod_cast hinv
        have h2 : (0 : ℚ) < (testedCount doc v : ℚ) := by exact_mod_cast ht
        calc (correctCount doc v : ℚ) / (testedCount doc v : ℚ) * 100
            ≤ 1 * 100 := by
              apply mul_le_mul_of_nonneg_right _ (by norm_num)
              rw [div_le_one h2]
              exact h1
          _ = 100 := by norm_num
      · simp [ht] at hq

/-- Witness for C5 at the concrete report for `docA`. -/
theorem accuracy_defined_and_bounded_witness :
    snapA.accuracy = some 100 ∧ ((0 : ℚ) ≤ 100 ∧ (100 : ℚ) ≤ 100) :=
  ⟨by decide,
    (accuracy_defined_and_bounded ["a", "b"] docA "dev" snapA
      print_statistics_docA_eval (by decide)).2 100 (by decide)⟩

/-- C7 counterexample: with dataset ["a", "b"] and the double-recorded
document `docAA`, the printed report has untested_count = 1 while
total_titles - tested_this_version = 2 - 2 = 0. -/
theorem untested_count_counterexample :
    print_statistics ["a", "b"] docAA "dev" = some snapAA ∧
    snapAA.untested_count
      ≠ snapAA.total_titles - snapAA.tested_this_version := by
  exact ⟨print_statistics_docAA_eval, by decide⟩

/-- C7 amended: the reported untested count equals the dataset size minus
the number of dataset titles that already have an entry for the current
version (the code counts by filtering the dataset, not from
`versions[v].tested_count`, which can differ from it). -/
theorem untested_count_eq (ds : List String) (doc : ResultsDocument)
    (v : String) (snap : StatsSnapshot)
    (hsnap : print_statistics ds doc v = some snap) :
    snap.untested_count
      = snap.total_titles - ds.countP (fun t => hasVerdict doc t v) ∧
    ds.countP (fun t => hasVerdict doc t v) ≤ snap.total_titles := by
  simp only [print_statistics] at hsnap
  by_cases hds : ds = []
  · simp [hds] at hsnap
  · rw [if_neg hds] at hsnap
    have h2 := Option.some_inj.mp hsnap
    subst h2
    exact ⟨length_filter_not (fun t => hasVerdict doc t v) ds,
      List.countP_le_length _⟩

/-- Witness for the amended C7 at the concrete report for `docAA`. -/
theorem untested_count_eq_witness :
    snapAA.untested_count
      = snapAA.total_titles
        - ["a", "b"].countP (fun t => hasVerdict docAA t "dev") ∧
    ["a", "b"].countP (fun t => hasVerdict docAA t "dev")
      ≤ snapAA.total_titles :=
  untested_count_eq ["a", "b"] docAA "dev" snapAA print_statistics_docAA_eval

/-- C8: on every exit route — candidates exhausted (`done`), user quit
(`quit`), and external interruption while awaiting input (`interrupted`) —
the interactive session ends with a final save followed by a statistics
report; one concrete session per route is included. -/
theorem session_final_flush :
    (∀ (ds : List String) (v : String) (parseFn : String → AssocL String)
      (now : String) (retest_list : Option (List String)) (picks : List Nat)
      (inputs : List Input) (doc : ResultsDocument),
      ∃ pre, (interactive_testing ds v parseFn now retest_list picks inputs
        doc).2.1 = pre ++ [Event.save, Event.stats]) ∧
    interactive_testing ["a"] "dev" (fun _ => []) "t" none [] [] docA
      = (docA, [Event.save, Event.stats], ExitKind.done) ∧
    interactive_testing ["a"] "dev" (fun _ => []) "t" none []
      [Input.line "q"] create_new_results
      = (create_new_results, [Event.save, Event.stats], ExitKind.quit) ∧
    interactive_testing ["a"] "dev" (fun _ => []) "t" none []
      [Input.interrupt] create_new_results
      = (create_new_results, [Event.save, Event.stats],
          ExitKind.interrupted) := by
  refine ⟨?_, by decide, by decide, by decide⟩
  intro ds v parseFn now retest_list picks inputs doc
  exact ⟨(session_body ds v parseFn now retest_list (inputs.length + 1) picks
    inputs doc 0).2.1, rfl⟩

/-- C9: a skipped round advances the same round counter as a recorded round
(the loop recurses with `count + 1` on skip), so skips count toward the
every-5 statistics snapshot and the every-10 continue prompt: after 4 skips
one recorded round triggers the snapshot, and after 9 skips one recorded
round triggers the continue prompt. -/
theorem skip_increments_round_counter :
    (∀ (ds : List String) (v : String) (parseFn : String → AssocL String)
      (now : String) (retest_list : Option (List String)) (fuel : Nat)
      (picks : List Nat) (rest : List Input) (doc : ResultsDocument)
      (count : Nat) (title : String),
      select_title ds v retest_list doc (picks.headD 0) count = some title →
      session_body ds v parseFn now retest_list (fuel + 1) picks
        (Input.line "s" :: rest) doc count
        = session_body ds v parseFn now retest_list fuel picks.tail rest doc
            (count + 1)) ∧
    (interactive_testing ["a"] "dev" (fun _ => []) "t" none []
      (List.replicate 4 (Input.line "s") ++ [Input.line ""])
      create_new_results).2.1
      = [Event.record "a" true, Event.save, Event.stats, Event.save,
         Event.stats] ∧
    (interactive_testing ["a"] "dev" (fun _ => []) "t" none []
      (List.replicate 9 (Input.line "s") ++ [Input.line "", Input.line ""])
      create_new_results).2.1
      = [Event.record "a" true, Event.save, Event.stats, Event.askContinue,
         Event.save, Event.stats] := by
  refine ⟨?_, by decide, by decide⟩
  intro ds v parseFn now retest_list fuel picks rest doc count title h
  have hresp : get_verdict_response (Input.line "s" :: rest)
      = some ("s", rest) := rfl
  simp only [session_body, h, hresp]
  norm_num
  intro hq
  exact absurd hq (by decide)

/-- Witness for C9: the skip equation at a concrete configuration. -/
theorem skip_increments_round_counter_witness :
    session_body ["a"] "dev" (fun _ => []) "t" none 1 []
      [Input.line "s"] create_new_results 0
      = session_body ["a"] "dev" (fun _ => []) "t" none 0 [] []
          create_new_results 1 :=
  skip_increments_round_counter.1 ["a"] "dev" (fun _ => []) "t" none 0 [] []
    create_new_results 0 "a" rfl

end PttTester
